import Mathlib

/-!
Verification development for the real-time chat layer of the Tawa marketplace backend:
layer: Chat / Message data model (`src/models/Chat.js`, the Message schema),
the socket gateway (`SocketServer` in `serviceController.js`) and the REST
chat controller (`chatController.js`), shallowly embedded as pure functions
over an explicit database and server state.

Identities, sockets, chats, messages and timestamps are numbers; the mongoose
`Map` used for unread counters and the two JS `Map`s of the socket registry
become association lists with JS `Map.set` / `Map.delete` semantics.
-/

namespace Tawa

abbrev UserId := Nat
abbrev SocketId := Nat
abbrev ChatId := Nat
abbrev MsgId := Nat
abbrev Time := Nat

/-- JS `Map.set k v`: replaces the value of an existing key in place,
otherwise appends the new binding. -/
def setKV (m : List (Nat × Nat)) (k v : Nat) : List (Nat × Nat) :=
  match m with
  | [] => [(k, v)]
  | (k1, v1) :: rest => if k1 = k then (k, v) :: rest else (k1, v1) :: setKV rest k v

/-- JS `Map.get k`: first binding of `k`, if any. -/
def getKV (m : List (Nat × Nat)) (k : Nat) : Option Nat :=
  match m with
  | [] => none
  | (k1, v1) :: rest => if k1 = k then some v1 else getKV rest k

/-- JS `Map.delete k`: drops every binding of `k` (keys are unique in maps
built through `setKV`, so this is the single binding when present). -/
def eraseKV (m : List (Nat × Nat)) (k : Nat) : List (Nat × Nat) :=
  m.filter (fun p => p.1 ≠ k)

/-- The `chatSchema` (src/models/Chat.js): participants, service/booking links,
last-message pointer and per-user unread counters (a mongoose `Map`). -/
structure Chat where
  id : ChatId
  participants : List UserId
  serviceId : Nat
  bookingId : Option Nat
  lastMessage : Option MsgId
  lastMessageAt : Time
  isActive : Bool
  unreadCount : List (UserId × Nat)
deriving Repr, DecidableEq

/-- The `chatSchema.methods.getUnreadCount`: `unreadCount.get(userId) || 0`. -/
def Chat.getUnreadCount (c : Chat) (u : UserId) : Nat :=
  (getKV c.unreadCount u).getD 0

/-- The `chatSchema.methods.markAsRead`: `unreadCount.set(userId, 0)` then save. -/
def Chat.markAsRead (c : Chat) (u : UserId) : Chat :=
  { c with unreadCount := setKV c.unreadCount u 0 }

/-- The `chatSchema.methods.incrementUnread`: read current count, set count+1, save. -/
def Chat.incrementUnread (c : Chat) (u : UserId) : Chat :=
  { c with unreadCount := setKV c.unreadCount u (c.getUnreadCount u + 1) }

/-- One entry of the `attachments` array of the Message schema. -/
structure Attachment where
  filename : String
  originalName : String
  mimeType : String
  size : Nat
  url : String
deriving Repr, DecidableEq

/-- The `messageType` enum of the Message schema. -/
inductive MessageType where
  | text
  | image
  | file
  | system
deriving Repr, DecidableEq

/-- The Message schema: content, kind, attachments, read markers, soft-delete
flag, edit timestamp, in-chat reply reference, and the store-assigned
`createdAt` (mongoose `timestamps: true`).  The store assigns `id`
monotonically on insert.  The schema has no `deletedAt` path, so the REST
assignment of `deletedAt` in the REST delete handler is not persisted and is not a field
here. -/
structure Message where
  id : MsgId
  chatId : ChatId
  sender : UserId
  content : String
  messageType : MessageType
  attachments : List Attachment
  readBy : List (UserId × Time)
  isDeleted : Bool
  editedAt : Option Time
  replyTo : Option MsgId
  createdAt : Time
deriving Repr, DecidableEq

/-- The 5-minute edit window of `messageSchema.methods.canEdit`, in ms. -/
def editWindowMs : Nat := 5 * 60 * 1000

/-- The `messageSchema.methods.canEdit`: sender matches, `createdAt` is strictly
after `now - 5 minutes`, and the message is not soft-deleted.  Over the
integers `createdAt > now - window` is `now < createdAt + window`, which is
how the strict JS comparison is rendered on `Nat`. -/
def Message.canEdit (m : Message) (now : Time) (u : UserId) : Bool :=
  m.sender == u && now < m.createdAt + editWindowMs && !m.isDeleted

/-- The `messageSchema.methods.editMessage`: overwrite content, stamp `editedAt`. -/
def Message.editMessage (m : Message) (newContent : String) (now : Time) : Message :=
  { m with content := newContent, editedAt := some now }

/-- The fixed tombstone string of `messageSchema.methods.deleteMessage`. -/
def tombstone : String := "[Message deleted]"

/-- The `messageSchema.methods.deleteMessage`: sets the flag and replaces content
with the tombstone.  (The REST delete route does NOT call this method.) -/
def Message.deleteMessageMethod (m : Message) : Message :=
  { m with isDeleted := true, content := tombstone }

/-- The slice of the User schema the chat layer reads: identity and the
`isBlocked` moderation flag. -/
structure User where
  id : UserId
  isBlocked : Bool
deriving Repr, DecidableEq

/-- The document store as seen by the chat layer: users, chats, messages, the
set of existing service ids, and the store-side monotonic id counters. -/
structure DB where
  users : List User
  services : List Nat
  chats : List Chat
  messages : List Message
  nextChatId : ChatId
  nextMsgId : MsgId
deriving Repr, DecidableEq

/-- The `Chat.findById`. -/
def DB.findChat (db : DB) (cid : ChatId) : Option Chat :=
  db.chats.find? (fun c => c.id == cid)

/-- The `Message.findById`. -/
def DB.findMessage (db : DB) (mid : MsgId) : Option Message :=
  db.messages.find? (fun m => m.id == mid)

/-- The `User.findById`. -/
def DB.findUser (db : DB) (uid : UserId) : Option User :=
  db.users.find? (fun u => u.id == uid)

/-- The `chat.save()` after mutating only the `unreadCount` path (markAsRead /
incrementUnread): the stored chat keeps its other fields and takes the
unread counters of the document. -/
def DB.saveChatUnread (db : DB) (c : Chat) : DB :=
  { db with chats := db.chats.map (fun c1 =>
      if c1.id == c.id then { c1 with unreadCount := c.unreadCount } else c1) }

/-- The `chat.save()` after mutating the `lastMessage`/`lastMessageAt` paths. -/
def DB.saveChatLastMessage (db : DB) (cid : ChatId) (mid : MsgId) (at1 : Time) : DB :=
  { db with chats := db.chats.map (fun c1 =>
      if c1.id == cid then { c1 with lastMessage := some mid, lastMessageAt := at1 } else c1) }

/-- The `message.save()` after mutating an existing message (edit / soft delete):
replace the stored document with the given one, matched by id. -/
def DB.saveMessage (db : DB) (m : Message) : DB :=
  { db with messages := db.messages.map (fun m1 => if m1.id == m.id then m else m1) }

/-- The `new Message({...}); await message.save()`: the store assigns the id and
`createdAt`, the `pre("save")` hook updates the `lastMessage` and `lastMessageAt` fields
of the owning chat, and the document is inserted. -/
def DB.saveNewMessage (db : DB) (chatId : ChatId) (sender : UserId) (content : String)
    (mt : MessageType) (atts : List Attachment) (replyTo : Option MsgId) (now : Time) :
    DB × Message :=
  let m : Message :=
    { id := db.nextMsgId, chatId := chatId, sender := sender, content := content,
      messageType := mt, attachments := atts, readBy := [], isDeleted := false,
      editedAt := none, replyTo := replyTo, createdAt := now }
  let db1 := db.saveChatLastMessage chatId m.id m.createdAt
  ({ db1 with messages := db1.messages ++ [m], nextMsgId := db1.nextMsgId + 1 }, m)

/-- In-memory state of `SocketServer`: the two registry maps
(`userSockets : userId -> socketId`, `socketUsers : socketId -> userId`) and
the socket.io `chat_<id>` room membership (room -> sockets in it).  Personal
`user_<id>` rooms coincide with the `userSockets` map and are not duplicated
here. -/
structure ServerState where
  userSockets : List (UserId × SocketId)
  socketUsers : List (SocketId × UserId)
  rooms : List (ChatId × List SocketId)
deriving Repr, DecidableEq

/-- Events emitted back over the wire by the handlers modelled here.
`newMessage` is the room broadcast (`io.to(chat_<id>).emit("new_message")`);
`messageNotification` is targeted at one socket. -/
inductive Event where
  | errorEvt (target : SocketId) (msg : String)
  | joinedChat (target : SocketId) (chatId : ChatId)
  | newMessage (roomChat : ChatId) (msgId : MsgId)
  | messageNotification (target : SocketId) (chatId : ChatId) (content : String)
      (sender : UserId) (unreadCount : Nat)
  | userOnline (u : UserId)
  | userOffline (u : UserId)
deriving Repr, DecidableEq

/-- Add a socket to a chat room (`socket.join`); idempotent like socket.io. -/
def joinRoom (rooms : List (ChatId × List SocketId)) (cid : ChatId) (sid : SocketId) :
    List (ChatId × List SocketId) :=
  match rooms with
  | [] => [(cid, [sid])]
  | (c, ss) :: rest =>
      if c = cid then (c, if ss.contains sid then ss else ss ++ [sid]) :: rest
      else (c, ss) :: joinRoom rest cid sid

/-- The abstract bearer token of the handshake: the identity carried in the
payload and whether `jwt.verify` accepts it (signature + expiry are the
contract of the external auth collaborator). -/
structure Tok where
  id : UserId
  valid : Bool
deriving Repr, DecidableEq

/-- Outcome of the handshake middleware. -/
inductive HandshakeResult where
  | authenticated (u : UserId)
  | rejected (msg : String)
deriving Repr, DecidableEq

/-- The `SocketServer.setupMiddleware`: reject when no token, when `jwt.verify`
throws (malformed/expired), or when the decoded user does not exist; otherwise
the connection is authenticated as the identity carried by the token.  The middleware reads
no other field of the user document. -/
def socketAuthMiddleware (db : DB) (token : Option Tok) : HandshakeResult :=
  match token with
  | none => .rejected "Authentication error: No token provided"
  | some t =>
      if !t.valid then .rejected "Authentication error: Invalid token"
      else
        match db.findUser t.id with
        | none => .rejected "Authentication error: User not found"
        | some _ => .authenticated t.id

/-- The `SocketServer.handleConnection`: `userSockets.set(userId, socketId)`,
`socketUsers.set(socketId, userId)`, join the personal room, broadcast
`user_online`.  Nothing is returned and no previous socket is looked up or
closed. -/
def handleConnection (st : ServerState) (u : UserId) (sid : SocketId) :
    ServerState × List Event :=
  ({ st with
      userSockets := setKV st.userSockets u sid,
      socketUsers := setKV st.socketUsers sid u },
   [.userOnline u])

/-- The `SocketServer.handleDisconnection`: `userSockets.delete(userId)` (keyed by
the identity, not by the disconnecting handle), `socketUsers.delete(socketId)`,
broadcast `user_offline`.  Room membership of the socket is dropped by the
socket.io transport on disconnect. -/
def handleDisconnection (st : ServerState) (u : UserId) (sid : SocketId) :
    ServerState × List Event :=
  ({ st with
      userSockets := eraseKV st.userSockets u,
      socketUsers := eraseKV st.socketUsers sid,
      rooms := st.rooms.map (fun r => (r.1, r.2.filter (fun s => s ≠ sid))) },
   [.userOffline u])

/-- The `SocketServer.handleJoinChat`: membership check against the chat document,
`socket.join(chat_<id>)`, `chat.markAsRead(userId)`, ack with `joined_chat`. -/
def handleJoinChat (st : ServerState) (db : DB) (u : UserId) (sid : SocketId)
    (chatId : ChatId) : ServerState × DB × List Event :=
  match db.findChat chatId with
  | none => (st, db, [.errorEvt sid "Access denied to chat"])
  | some chat =>
      if !chat.participants.contains u then
        (st, db, [.errorEvt sid "Access denied to chat"])
      else
        let st1 := { st with rooms := joinRoom st.rooms chatId sid }
        (st1, db.saveChatUnread (chat.markAsRead u), [.joinedChat sid chatId])

/-- Payload of a `send_message` event. -/
structure SendData where
  chatId : ChatId
  content : String
  messageType : MessageType
  attachments : List Attachment
  replyTo : Option MsgId
deriving Repr, DecidableEq

/-- The `SocketServer.handleSendMessage`.  `saveOk` models the outcome of
`await message.save()` (a store failure there lands in the catch block, which
emits a single error event to the sender).  On the success path: append the
message (the pre-save hook updates the last-message fields of the chat), increment the
unread counter of every *other* participant, broadcast `new_message` to the
chat room, then emit `message_notification` to each other participant that has
a registered socket — looked up in `userSockets` only, never against room
membership — carrying the incremented in-memory unread count.  No validation
of `replyTo` happens on this path. -/
def handleSendMessage (st : ServerState) (db : DB) (u : UserId) (sid : SocketId)
    (d : SendData) (now : Time) (saveOk : Bool) : DB × List Event :=
  match db.findChat d.chatId with
  | none => (db, [.errorEvt sid "Access denied"])
  | some chat =>
      if !chat.participants.contains u then
        (db, [.errorEvt sid "Access denied"])
      else if !saveOk then
        (db, [.errorEvt sid "Error sending message"])
      else
        let r := db.saveNewMessage d.chatId u d.content d.messageType d.attachments
          d.replyTo now
        let others := chat.participants.filter (fun p => p ≠ u)
        let chat1 := others.foldl (fun c p => c.incrementUnread p) chat
        let db2 := r.1.saveChatUnread chat1
        let notifs := others.filterMap (fun p =>
          (getKV st.userSockets p).map (fun psid =>
            Event.messageNotification psid d.chatId r.2.content u (chat1.getUnreadCount p)))
        (db2, Event.newMessage d.chatId r.2.id :: notifs)

/-- Error responses of the REST chat controller (`utils/errors` classes and
the two handlers that answer with a bare 403/404 status). -/
inductive ApiError where
  | notFound (msg : String)
  | authorization (msg : String)
  | validation (msg : String)
deriving Repr, DecidableEq

/-- Stable insertion sort by `createdAt` descending: the embedding of the
query `sort({ createdAt: -1 })`.  The store sorts on `createdAt` alone — no
secondary key — so ties are determinized here by insertion order. -/
def insertByCreatedDesc (m : Message) : List Message → List Message
  | [] => [m]
  | n :: ns =>
      if n.createdAt < m.createdAt then m :: n :: ns
      else n :: insertByCreatedDesc m ns

/-- Sort a message list by `createdAt` descending (stable). -/
def sortByCreatedDesc (l : List Message) : List Message :=
  l.foldl (fun acc m => insertByCreatedDesc m acc) []

/-- Response of `getChatMessages`: the page data (reversed into chronological
order by the handler) and the pagination block. -/
structure PageResult where
  data : List Message
  currentPage : Nat
  totalMessages : Nat
  hasNext : Bool
  hasPrev : Bool
deriving Repr, DecidableEq

/-- The `Chat.findOne({ participants: { $all: [a, b] }, serviceId, isActive })`. -/
def DB.findActiveChatFor (db : DB) (a b : UserId) (sid : Nat) : Option Chat :=
  db.chats.find? (fun c =>
    c.participants.contains a && c.participants.contains b &&
    c.serviceId == sid && c.isActive)

/-- The `createOrGetChat` (POST /api/chats): validate service and other user, look
up the existing active chat for the pair+service; when found, `markAsRead` for
the caller and return it; otherwise insert a fresh chat with empty unread
counters.  Returns the possibly-updated store, and on success the chat plus a
flag telling whether it already existed. -/
def createOrGetChat (db : DB) (u : UserId) (serviceId : Nat) (otherUserId : UserId)
    (bookingId : Option Nat) (now : Time) : DB × Except ApiError (Chat × Bool) :=
  if !db.services.contains serviceId then
    (db, .error (.notFound "Service not found"))
  else if (db.findUser otherUserId).isNone then
    (db, .error (.notFound "User not found"))
  else
    match db.findActiveChatFor u otherUserId serviceId with
    | some chat =>
        let chat1 := chat.markAsRead u
        (db.saveChatUnread chat1, .ok (chat1, true))
    | none =>
        let chat : Chat :=
          { id := db.nextChatId, participants := [u, otherUserId],
            serviceId := serviceId, bookingId := bookingId, lastMessage := none,
            lastMessageAt := now, isActive := true, unreadCount := [] }
        ({ db with chats := db.chats ++ [chat], nextChatId := db.nextChatId + 1 },
         .ok (chat, false))

/-- The `getChatMessages` (GET /api/chats/:chatId/messages): membership check,
then `chat.markAsRead(userId)` — a write on the read path — then the page
query `Message.find({ chatId, isDeleted: false }).sort({ createdAt: -1 })
.skip((page-1)*limit).limit(limit)` and the final `.reverse()` into
chronological order. -/
def getChatMessages (db : DB) (u : UserId) (chatId : ChatId) (page limit : Nat) :
    DB × Except ApiError PageResult :=
  match db.findChat chatId with
  | none => (db, .error (.notFound "Chat not found"))
  | some chat =>
      if !chat.participants.contains u then
        (db, .error (.authorization "Access denied"))
      else
        let db1 := db.saveChatUnread (chat.markAsRead u)
        let skip := (page - 1) * limit
        let all := sortByCreatedDesc (db1.messages.filter (fun m =>
          m.chatId == chatId && !m.isDeleted))
        let pageMsgs := (all.drop skip).take limit
        (db1, .ok {
          data := pageMsgs.reverse,
          currentPage := page,
          totalMessages := all.length,
          hasNext := skip + pageMsgs.length < all.length,
          hasPrev := decide (page > 1) })

/-- The `replyTo` guard of the REST `sendMessage`: invalid when the referenced
message does not exist or belongs to a different chat. -/
def replyToInvalid (db : DB) (chatId : ChatId) (replyTo : Option MsgId) : Bool :=
  match replyTo with
  | none => false
  | some rid =>
      match db.findMessage rid with
      | none => true
      | some rm => rm.chatId != chatId

/-- The `sendMessage` (POST /api/chats/:chatId/messages): membership check, the
`replyTo` same-chat validation (`ValidationError` on failure), append via
`message.save()` (hook updates last-message fields), then the second
`chat.lastMessage/lastMessageAt` save issued by the controller.  Email/push notifications are
best-effort side calls with no store effect and are not modelled. -/
def sendMessage (db : DB) (u : UserId) (chatId : ChatId) (content : String)
    (mt : MessageType) (atts : List Attachment) (replyTo : Option MsgId)
    (now : Time) : DB × Except ApiError Message :=
  match db.findChat chatId with
  | none => (db, .error (.notFound "Chat not found"))
  | some chat =>
      if !chat.participants.contains u then
        (db, .error (.authorization "Access denied"))
      else if replyToInvalid db chatId replyTo then
        (db, .error (.validation "Invalid reply message"))
      else
        let r := db.saveNewMessage chatId u content mt atts replyTo now
        (r.1.saveChatLastMessage chatId r.2.id now, .ok r.2)

/-- The `editMessage` (PUT /api/chats/:chatId/messages/:messageId): chat and
membership checks, message lookup (404 also when the message belongs to a
different chat), then the single `canEdit` gate — every failed precondition
(wrong sender, expired window, soft-deleted) answers with the same 403
"Cannot edit this message"; only then is the edit saved. -/
def editMessage (db : DB) (u : UserId) (chatId : ChatId) (messageId : MsgId)
    (content : String) (now : Time) : DB × Except ApiError Message :=
  match db.findChat chatId with
  | none => (db, .error (.notFound "Chat not found"))
  | some chat =>
      if !chat.participants.contains u then
        (db, .error (.authorization "Access denied"))
      else
        match db.findMessage messageId with
        | none => (db, .error (.notFound "Message not found"))
        | some m =>
            if m.chatId != chatId then
              (db, .error (.notFound "Message not found"))
            else if !m.canEdit now u then
              (db, .error (.authorization "Cannot edit this message"))
            else
              let m1 := m.editMessage content now
              (db.saveMessage m1, .ok m1)

/-- The `deleteMessage` (DELETE /api/chats/:chatId/messages/:messageId): message
lookup, chat-consistency and sender checks, then the soft delete — the handler
sets `isDeleted` (and a `deletedAt` that the schema drops) directly and does
NOT call the tombstoning `deleteMessage` schema method, so the content is
left unchanged. -/
def deleteMessage (db : DB) (u : UserId) (chatId : ChatId) (messageId : MsgId) :
    DB × Except ApiError Unit :=
  match db.findMessage messageId with
  | none => (db, .error (.notFound "Message not found"))
  | some m =>
      if m.chatId != chatId then
        (db, .error (.validation "Message does not belong to this chat"))
      else if m.sender != u then
        (db, .error (.authorization "You can only delete your own messages"))
      else
        (db.saveMessage { m with isDeleted := true }, .ok ())

/-! Concrete fixtures used to evaluate the model on small inputs. -/

/-- A three-party chat with no unread messages. -/
def chatA : Chat :=
  { id := 0, participants := [1, 2, 3], serviceId := 0, bookingId := none,
    lastMessage := none, lastMessageAt := 0, isActive := true, unreadCount := [] }

/-- Store holding only `chatA`. -/
def dbA : DB :=
  { users := [⟨1, false⟩, ⟨2, false⟩, ⟨3, false⟩], services := [0],
    chats := [chatA], messages := [], nextChatId := 1, nextMsgId := 0 }

/-- Users 1 and 2 connected; both their sockets already joined the room of chat 0;
user 3 has no live connection. -/
def stA : ServerState :=
  { userSockets := [(1, 10), (2, 20)], socketUsers := [(10, 1), (20, 2)],
    rooms := [(0, [10, 20])] }

/-- User 1 sends "hello" to chat 0. -/
def sendA : SendData :=
  { chatId := 0, content := "hello", messageType := .text, attachments := [],
    replyTo := none }

/-- A two-party chat with pending unread counters for both members. -/
def chatB : Chat :=
  { id := 0, participants := [1, 2], serviceId := 0, bookingId := none,
    lastMessage := some 0, lastMessageAt := 50, isActive := true,
    unreadCount := [(1, 3), (2, 4)] }

/-- A stored message from user 1 in `chatB`, created at t = 50. -/
def msgB : Message :=
  { id := 0, chatId := 0, sender := 1, content := "hello", messageType := .text,
    attachments := [], readBy := [], isDeleted := false, editedAt := none,
    replyTo := none, createdAt := 50 }

/-- Store holding `chatB` and `msgB`. -/
def dbB : DB :=
  { users := [⟨1, false⟩, ⟨2, false⟩], services := [0],
    chats := [chatB], messages := [msgB], nextChatId := 1, nextMsgId := 1 }

/-- Store whose only user (id 7) is blocked. -/
def dbC : DB :=
  { users := [⟨7, true⟩], services := [], chats := [], messages := [],
    nextChatId := 0, nextMsgId := 0 }

/-- A token for user 7 that `jwt.verify` accepts. -/
def tokC : Tok := { id := 7, valid := true }

/-- Registry after identity 1 connects with socket 10 on an empty server. -/
def stReg1 : ServerState := (handleConnection ⟨[], [], []⟩ 1 10).1

/-- Registry after the same identity 1 then connects with socket 20. -/
def stReg2 : ServerState := (handleConnection stReg1 1 20).1

/-- First of two chats between users 1 and 2 — the one being sent into. -/
def chatD0 : Chat :=
  { id := 0, participants := [1, 2], serviceId := 0, bookingId := none,
    lastMessage := none, lastMessageAt := 0, isActive := true, unreadCount := [] }

/-- Second chat, the one the reply target belongs to. -/
def chatD1 : Chat :=
  { id := 1, participants := [1, 2], serviceId := 1, bookingId := none,
    lastMessage := some 0, lastMessageAt := 10, isActive := true, unreadCount := [] }

/-- The stored message of chat 1 — the cross-chat reply target. -/
def msgD : Message :=
  { id := 0, chatId := 1, sender := 2, content := "orig", messageType := .text,
    attachments := [], readBy := [], isDeleted := false, editedAt := none,
    replyTo := none, createdAt := 10 }

/-- Store holding both chats and the reply target. -/
def dbD : DB :=
  { users := [⟨1, false⟩, ⟨2, false⟩], services := [0],
    chats := [chatD0, chatD1], messages := [msgD],
    nextChatId := 2, nextMsgId := 1 }

/-- User 1 connected with socket 10, no rooms joined. -/
def stD : ServerState :=
  { userSockets := [(1, 10)], socketUsers := [(10, 1)], rooms := [] }

/-- A send into chat 0 whose `replyTo` is message 0 — which lives in chat 1. -/
def sendD : SendData :=
  { chatId := 0, content := "cross", messageType := .text, attachments := [],
    replyTo := some 0 }

/-- First of two messages of chat 0 created in the same millisecond. -/
def msgE1 : Message :=
  { id := 0, chatId := 0, sender := 1, content := "first", messageType := .text,
    attachments := [], readBy := [], isDeleted := false, editedAt := none,
    replyTo := none, createdAt := 100 }

/-- Second message, appended after `msgE1` with the same `createdAt`. -/
def msgE2 : Message :=
  { id := 1, chatId := 0, sender := 2, content := "second", messageType := .text,
    attachments := [], readBy := [], isDeleted := false, editedAt := none,
    replyTo := none, createdAt := 100 }

/-- Store holding chat 0 with the two simultaneous messages in append order. -/
def dbE : DB :=
  { users := [⟨1, false⟩, ⟨2, false⟩], services := [0],
    chats := [{ id := 0, participants := [1, 2], serviceId := 0, bookingId := none,
                lastMessage := some 1, lastMessageAt := 100, isActive := true,
                unreadCount := [] }],
    messages := [msgE1, msgE2], nextChatId := 1, nextMsgId := 2 }

/-- The only key the page query sorts on is `createdAt` — there is no
secondary, store-assigned tie-break key in `sort({ createdAt: -1 })`. -/
def messageOrderKey (m : Message) : Nat := m.createdAt

/-- Target socket of a `message_notification` event, `none` for any other
event kind. -/
def notifTarget : Event → Option SocketId
  | .messageNotification t _ _ _ _ => some t
  | _ => none

theorem getKV_setKV (m : List (Nat × Nat)) (k v k1 : Nat) :
    getKV (setKV m k v) k1 = if k1 = k then some v else getKV m k1 := by
  induction m with
  | nil =>
    by_cases h : k1 = k
    · subst h; simp [setKV, getKV]
    · have h2 : ¬ k = k1 := Ne.symm h
      simp [setKV, getKV, h, h2]
  | cons p rest ih =>
    obtain ⟨pk, pv⟩ := p
    by_cases hpk : pk = k
    · subst hpk
      by_cases h : pk = k1
      · subst h; simp [setKV, getKV]
      · have h2 : ¬ k1 = pk := Ne.symm h
        simp [setKV, getKV, h, h2]
    · by_cases h : pk = k1
      · subst h
        have h2 : ¬ pk = k := hpk
        simp [setKV, getKV, h2, Ne.symm h2]
      · simp [setKV, getKV, hpk, h, ih]

theorem getKV_eraseKV (m : List (Nat × Nat)) (k k1 : Nat) :
    getKV (eraseKV m k) k1 = if k1 = k then none else getKV m k1 := by
  induction m with
  | nil =>
    simp [eraseKV, getKV]
  | cons p rest ih =>
    obtain ⟨pk, pv⟩ := p
    by_cases hpk : pk = k
    · subst hpk
      have hstep : eraseKV ((pk, pv) :: rest) pk = eraseKV rest pk := by
        simp [eraseKV]
      rw [hstep, ih]
      by_cases h : k1 = pk
      · simp [h]
      · have h2 : ¬ pk = k1 := Ne.symm h
        simp [h, getKV, h2]
    · have hstep : eraseKV ((pk, pv) :: rest) k = (pk, pv) :: eraseKV rest k := by
        simp [eraseKV, hpk]
      rw [hstep]
      by_cases h : pk = k1
      · subst h
        simp [getKV, hpk]
      · simp [getKV, h, ih]

theorem eraseKV_absent (m : List (Nat × Nat)) (k : Nat) (h : getKV m k = none) :
    eraseKV m k = m := by
  induction m with
  | nil => simp [eraseKV]
  | cons p rest ih =>
    obtain ⟨pk, pv⟩ := p
    by_cases hpk : pk = k
    · subst hpk
      unfold getKV at h
      simp at h
    · unfold getKV at h
      simp [hpk] at h
      have hrest := ih h
      simp [eraseKV, hpk] at hrest ⊢
      exact hrest

/-! Supporting lemmas. -/

theorem find?_map_of_pred {α : Type} (l : List α) (p : α → Bool) (f : α → α)
    (hf : ∀ a, p (f a) = p a) : (l.map f).find? p = (l.find? p).map f := by
  induction l with
  | nil => rfl
  | cons a rest ih =>
    by_cases h : p a = true
    · rw [List.map_cons, List.find?_cons_of_pos _ ((hf a).trans h),
          List.find?_cons_of_pos _ h]
      rfl
    · rw [List.map_cons, List.find?_cons_of_neg _ (by rw [hf]; exact h),
          List.find?_cons_of_neg _ h, ih]

theorem getUnreadCount_markAsRead (c : Chat) (u : UserId) :
    (c.markAsRead u).getUnreadCount u = 0 := by
  simp [Chat.markAsRead, Chat.getUnreadCount, getKV_setKV]

theorem getUnreadCount_incrementUnread (c : Chat) (q p : UserId) :
    (c.incrementUnread q).getUnreadCount p =
      if p = q then c.getUnreadCount p + 1 else c.getUnreadCount p := by
  by_cases h : p = q
  · subst h; simp [Chat.incrementUnread, Chat.getUnreadCount, getKV_setKV]
  · simp [Chat.incrementUnread, Chat.getUnreadCount, getKV_setKV, h]

theorem foldl_incrementUnread_not_mem (l : List UserId) (c : Chat) (p : UserId)
    (h : p ∉ l) :
    (l.foldl (fun c1 q => c1.incrementUnread q) c).getUnreadCount p =
      c.getUnreadCount p := by
  induction l generalizing c with
  | nil => rfl
  | cons q qs ih =>
    simp only [List.mem_cons, not_or] at h
    rw [List.foldl_cons, ih _ h.2, getUnreadCount_incrementUnread, if_neg h.1]

theorem foldl_incrementUnread_mem (l : List UserId) (c : Chat) (p : UserId)
    (hnd : l.Nodup) (h : p ∈ l) :
    (l.foldl (fun c1 q => c1.incrementUnread q) c).getUnreadCount p =
      c.getUnreadCount p + 1 := by
  induction l generalizing c with
  | nil => cases h
  | cons q qs ih =>
    rcases List.mem_cons.mp h with h1 | h1
    · subst h1
      rw [List.foldl_cons,
          foldl_incrementUnread_not_mem qs _ p (List.nodup_cons.mp hnd).1,
          getUnreadCount_incrementUnread, if_pos rfl]
    · have hne : p ≠ q := by
        intro hc; subst hc; exact (List.nodup_cons.mp hnd).1 h1
      rw [List.foldl_cons, ih _ (List.nodup_cons.mp hnd).2 h1,
          getUnreadCount_incrementUnread, if_neg hne]

theorem foldl_incrementUnread_id (l : List UserId) (c : Chat) :
    (l.foldl (fun c1 q => c1.incrementUnread q) c).id = c.id := by
  induction l generalizing c with
  | nil => rfl
  | cons q qs ih => rw [List.foldl_cons, ih]; rfl

/-! C4: the handshake depends only on token presence, token validity, and
user existence — never on the blocked flag. -/

/-- C4 (amended): the connection reaches the Authenticated state exactly when
a token is supplied, `jwt.verify` accepts it, and the decoded user exists;
and the outcome is invariant under arbitrarily rewriting the `isBlocked` flag of every
user, so a blocked account is NOT rejected. -/
theorem C4_theorem (db : DB) (tok : Option Tok) :
    ((∃ u, socketAuthMiddleware db tok = .authenticated u) ↔
      ∃ t, tok = some t ∧ t.valid = true ∧ (db.findUser t.id).isSome = true) ∧
    (∀ b, socketAuthMiddleware
        { db with users := db.users.map (fun v => { v with isBlocked := b }) } tok =
      socketAuthMiddleware db tok) := by
  constructor
  · constructor
    · rintro ⟨u, hu⟩
      match tok with
      | none => simp [socketAuthMiddleware] at hu
      | some t =>
        by_cases hv : t.valid = true
        · cases hfind : db.findUser t.id with
          | none => simp [socketAuthMiddleware, hv, hfind] at hu
          | some w => exact ⟨t, rfl, hv, by simp [hfind]⟩
        · simp [socketAuthMiddleware, Bool.not_eq_true _ ▸ hv] at hu
    · rintro ⟨t, rfl, hv, hsome⟩
      cases hfind : db.findUser t.id with
      | none => rw [hfind] at hsome; simp at hsome
      | some w => exact ⟨t.id, by simp [socketAuthMiddleware, hv, hfind]⟩
  · intro b
    have hfind : (DB.findUser { db with
        users := db.users.map (fun v => { v with isBlocked := b }) }) =
        fun uid => (db.findUser uid).map (fun v => { v with isBlocked := b }) := by
      funext uid
      exact find?_map_of_pred db.users _ _ (fun a => rfl)
    match tok with
    | none => rfl
    | some t =>
      by_cases hv : t.valid = true
      · cases hval : db.findUser t.id with
        | none => simp [socketAuthMiddleware, hv, hfind, hval]
        | some w => simp [socketAuthMiddleware, hv, hfind, hval]
      · simp [socketAuthMiddleware, Bool.not_eq_true _ ▸ hv]

/-- C4 witness: a concrete accepted handshake obtained from the
characterization. -/
theorem C4_witness : ∃ u, socketAuthMiddleware dbC (some tokC) = .authenticated u :=
  (C4_theorem dbC (some tokC)).1.mpr ⟨tokC, rfl, rfl, rfl⟩

/-- C5 (amended): when identity `u` already has a registration `s1`, a second
`handleConnection` with handle `s2` overwrites the forward mapping (last
connection wins), leaves the reverse-index entry of the old handle untouched, adds
the new reverse entry, and emits only the presence broadcast — no previous
handle is returned and no close is issued. -/
theorem C5_theorem (st : ServerState) (u : UserId) (s1 s2 : SocketId)
    ( _hprev : getKV st.userSockets u = some s1) (hne : s1 ≠ s2) :
    getKV (handleConnection st u s2).1.userSockets u = some s2 ∧
    getKV (handleConnection st u s2).1.socketUsers s1 = getKV st.socketUsers s1 ∧
    getKV (handleConnection st u s2).1.socketUsers s2 = some u ∧
    (handleConnection st u s2).2 = [.userOnline u] := by
  refine ⟨?_, ?_, ?_, rfl⟩
  · simp [handleConnection, getKV_setKV]
  · simp [handleConnection, getKV_setKV, hne]
  · simp [handleConnection, getKV_setKV]

/-- C5 witness: the theorem applied to the double registration of identity 1. -/
theorem C5_witness :
    getKV (handleConnection stReg1 1 20).1.userSockets 1 = some 20 ∧
    getKV (handleConnection stReg1 1 20).1.socketUsers 10 = getKV stReg1.socketUsers 10 ∧
    getKV (handleConnection stReg1 1 20).1.socketUsers 20 = some 1 ∧
    (handleConnection stReg1 1 20).2 = [.userOnline 1] :=
  C5_theorem stReg1 1 10 20 rfl (by decide)

/-- C6 (amended): disconnect unregisters by identity, not by handle — if the
identity currently maps to some handle `s2`, the disconnection of ANY handle
`sid` (in particular a stale one, `s2 ≠ sid`) removes that registration; the
benign-no-op behaviour holds only when neither key is present. -/
theorem C6_theorem (st : ServerState) (u : UserId) (sid s2 : SocketId) :
    (getKV st.userSockets u = some s2 → s2 ≠ sid →
      getKV (handleDisconnection st u sid).1.userSockets u = none) ∧
    (getKV st.userSockets u = none → getKV st.socketUsers sid = none →
      (handleDisconnection st u sid).1.userSockets = st.userSockets ∧
      (handleDisconnection st u sid).1.socketUsers = st.socketUsers) := by
  constructor
  · intro h1 h2
    simp [handleDisconnection, getKV_eraseKV]
  · intro h1 h2
    exact ⟨eraseKV_absent _ _ h1, eraseKV_absent _ _ h2⟩

/-- C6 witness: disconnecting the stale handle 10 removes the newer
registration of identity 1 to handle 20. -/
theorem C6_witness :
    getKV (handleDisconnection stReg2 1 10).1.userSockets 1 = none :=
  (C6_theorem stReg2 1 10 20).1 rfl (by decide)

/-- C1: refuted as stated.  User 2 is connected (socket 20) and that socket
is currently in the room of chat 0, yet after user 1 sends the message the
unread counter of user 2 is incremented to 1 AND a `message_notification` is emitted to socket
20; user 3 has no live connection and gets the increment but NO notification
signal — the handler keys notifications on `userSockets` registration, never
on room membership. -/
theorem C1_counterexample :
    ((stA.rooms.find? (fun r => r.1 == 0)).map (fun r => r.2.contains 20)) = some true ∧
    getKV stA.userSockets 3 = none ∧
    ((handleSendMessage stA dbA 1 10 sendA 100 true).1.findChat 0).map
        (fun c => (c.getUnreadCount 2, c.getUnreadCount 3)) = some (1, 1) ∧
    (handleSendMessage stA dbA 1 10 sendA 100 true).2 =
      [Event.newMessage 0 0, Event.messageNotification 20 0 "hello" 1 1] :=
  ⟨rfl, rfl, rfl, rfl⟩

/-- C3: refuted as stated.  The REST delete route marks message 0 deleted but
leaves its content "hello" (never the tombstone), and the deleted message then
disappears entirely from the paginated history (`isDeleted: false` filter)
instead of remaining visible as a deletion marker. -/
theorem C3_counterexample :
    (deleteMessage dbB 1 0 0).2 = .ok () ∧
    ((deleteMessage dbB 1 0 0).1.findMessage 0).map (fun m => (m.isDeleted, m.content)) =
      some (true, "hello") ∧
    "hello" ≠ tombstone ∧
    (getChatMessages (deleteMessage dbB 1 0 0).1 1 0 1 50).2 =
      .ok { data := [], currentPage := 1, totalMessages := 0,
            hasNext := false, hasPrev := false } :=
  ⟨rfl, rfl, by decide, rfl⟩

/-- C4: refuted as stated.  User 7 is blocked, the token is valid, and the
handshake middleware still authenticates the connection — it never consults
`isBlocked`. -/
theorem C4_counterexample :
    (dbC.findUser 7).map User.isBlocked = some true ∧
    tokC.valid = true ∧
    socketAuthMiddleware dbC (some tokC) = .authenticated 7 :=
  ⟨rfl, rfl, rfl⟩

/-- C5: refuted as stated.  After identity 1 registers socket 10 and then
socket 20, the old handle 10 is still registered in the reverse index (two
live registrations, not exactly one), and the second registration emits only
the presence broadcast — no previous handle is returned or force-closed. -/
theorem C5_counterexample :
    getKV stReg1.userSockets 1 = some 10 ∧
    getKV stReg2.userSockets 1 = some 20 ∧
    getKV stReg2.socketUsers 10 = some 1 ∧
    getKV stReg2.socketUsers 20 = some 1 ∧
    (handleConnection stReg1 1 20).2 = [.userOnline 1] :=
  ⟨rfl, rfl, rfl, rfl, rfl⟩

/-- C6: refuted as stated.  The current registration of identity 1 points to socket
20, yet the disconnect of the stale old socket 10 removes it — unregistration
deletes `userSockets` by identity, not by handle. -/
theorem C6_counterexample :
    getKV stReg2.userSockets 1 = some 20 ∧
    getKV ((handleDisconnection stReg2 1 10).1.userSockets) 1 = none :=
  ⟨rfl, rfl⟩

/-- C7: refuted as stated.  Message 0 belongs to chat 1, yet the realtime
send into chat 0 with `replyTo = 0` is not rejected: the message is appended
(replyTo intact) and `new_message` is broadcast. -/
theorem C7_counterexample :
    (dbD.findMessage 0).map Message.chatId = some 1 ∧
    (handleSendMessage stD dbD 1 10 sendD 100 true).2 = [Event.newMessage 0 1] ∧
    (handleSendMessage stD dbD 1 10 sendD 100 true).1.messages.map
        (fun m => (m.id, m.chatId, m.replyTo)) = [(0, 1, none), (1, 0, some 0)] :=
  ⟨rfl, rfl, rfl⟩

/-- C8: refuted as stated.  At elapsed time exactly 5 minutes the editor is
the sender, the message is not deleted, and `now - createdAt ≤ 5 min` holds,
yet the edit is rejected (`canEdit` uses a strict comparison), with the one
generic cannot-edit response and no store change. -/
theorem C8_counterexample :
    msgB.sender = 1 ∧ msgB.isDeleted = false ∧
    (50 + editWindowMs) - msgB.createdAt ≤ editWindowMs ∧
    editMessage dbB 1 0 0 "hello world" (50 + editWindowMs) =
      (dbB, .error (.authorization "Cannot edit this message")) :=
  ⟨rfl, rfl, by decide, rfl⟩

/-- C9: refuted as stated.  Messages 0 and 1 were appended in that order with
equal `createdAt`; the order key the query uses (`createdAt` alone) is not
strictly increasing, and the page comes back with the two messages in the
opposite relative order. -/
theorem C9_counterexample :
    dbE.messages = [msgE1, msgE2] ∧
    ¬ messageOrderKey msgE1 < messageOrderKey msgE2 ∧
    (getChatMessages dbE 1 0 1 50).2 =
      .ok { data := [msgE2, msgE1], currentPage := 1, totalMessages := 2,
            hasNext := false, hasPrev := false } :=
  ⟨rfl, by decide, rfl⟩

/-- Propositional reading of the `canEdit` gate. -/
theorem canEdit_iff (m : Message) (now : Time) (u : UserId) :
    m.canEdit now u = true ↔
      (m.sender = u ∧ now < m.createdAt + editWindowMs ∧ m.isDeleted = false) := by
  simp [Message.canEdit, and_assoc]

/-- C8 (amended): given the route guards pass (chat found, editor a member,
message found in that chat), the edit succeeds exactly when the editor is the
sender AND strictly less than 5 minutes have elapsed AND the message is not
soft-deleted; a soft-deleted message always fails — with the same generic
cannot-edit 403 as every other precondition failure — and any failed
precondition leaves the store untouched. -/
theorem C8_theorem (db : DB) (u : UserId) (chatId : ChatId) (mid : MsgId)
    (content : String) (now : Time) (chat : Chat) (m : Message)
    (hfind : db.findChat chatId = some chat)
    (hmem : chat.participants.contains u = true)
    (hm : db.findMessage mid = some m)
    (hchat : m.chatId = chatId) :
    ((editMessage db u chatId mid content now).2 = .ok (m.editMessage content now) ↔
      (m.sender = u ∧ now < m.createdAt + editWindowMs ∧ m.isDeleted = false)) ∧
    (m.isDeleted = true →
      editMessage db u chatId mid content now =
        (db, .error (.authorization "Cannot edit this message"))) ∧
    (m.canEdit now u = false → (editMessage db u chatId mid content now).1 = db) := by
  have hmem1 : u ∈ chat.participants := by simpa using hmem
  have hred : editMessage db u chatId mid content now =
      (if m.canEdit now u then
        (db.saveMessage (m.editMessage content now), .ok (m.editMessage content now))
      else (db, .error (.authorization "Cannot edit this message"))) := by
    simp [editMessage, hfind, hmem1, hm, hchat]
    by_cases hc : m.canEdit now u <;> simp [hc]
  by_cases hc : m.canEdit now u = true
  · refine ⟨?_, ?_, ?_⟩
    · rw [hred, if_pos hc]
      simp [(canEdit_iff m now u).mp hc]
    · intro hdel
      rcases (canEdit_iff m now u).mp hc with ⟨-, -, hnd⟩
      rw [hdel] at hnd; cases hnd
    · intro hcf; rw [hc] at hcf; cases hcf
  · have hcf : m.canEdit now u = false := by
      cases hval : m.canEdit now u
      · rfl
      · exact absurd hval hc
    refine ⟨?_, ?_, ?_⟩
    · rw [hred, if_neg (by simp [hcf])]
      constructor
      · intro hcontra; cases hcontra
      · intro hcond
        exact absurd ((canEdit_iff m now u).mpr hcond) hc
    · intro hdel
      rw [hred, if_neg (by simp [hcf])]
    · intro hcf1
      rw [hred, if_neg (by simp [hcf])]

/-- C8 witness: a successful edit one millisecond inside the window, through
the characterization given by the theorem. -/
theorem C8_witness :
    (editMessage dbB 1 0 0 "hello world" (49 + editWindowMs)).2 =
      .ok (msgB.editMessage "hello world" (49 + editWindowMs)) :=
  ((C8_theorem dbB 1 0 0 "hello world" (49 + editWindowMs) chatB msgB
      rfl rfl rfl rfl).1).mpr ⟨rfl, by decide, rfl⟩

theorem mem_insertByCreatedDesc (x m : Message) (l : List Message) :
    x ∈ insertByCreatedDesc m l ↔ x = m ∨ x ∈ l := by
  induction l with
  | nil => simp [insertByCreatedDesc]
  | cons n ns ih =>
    by_cases h : n.createdAt < m.createdAt
    · simp [insertByCreatedDesc, h]
    · simp [insertByCreatedDesc, h, ih]
      tauto

theorem mem_sortFold (l acc : List Message) (x : Message) :
    x ∈ l.foldl (fun a m => insertByCreatedDesc m a) acc ↔ x ∈ l ∨ x ∈ acc := by
  induction l generalizing acc with
  | nil => simp
  | cons m ms ih =>
    rw [List.foldl_cons, ih]
    simp [mem_insertByCreatedDesc]
    tauto

theorem mem_sortByCreatedDesc (l : List Message) (x : Message) :
    x ∈ sortByCreatedDesc l ↔ x ∈ l := by
  simp [sortByCreatedDesc, mem_sortFold]

theorem pairwise_insertByCreatedDesc (m : Message) (l : List Message)
    (h : l.Pairwise (fun a b => b.createdAt ≤ a.createdAt)) :
    (insertByCreatedDesc m l).Pairwise (fun a b => b.createdAt ≤ a.createdAt) := by
  induction l with
  | nil => simp [insertByCreatedDesc]
  | cons n ns ih =>
    rcases List.pairwise_cons.mp h with ⟨hn, hns⟩
    by_cases hlt : n.createdAt < m.createdAt
    · have hstep : insertByCreatedDesc m (n :: ns) = m :: n :: ns := by
        simp [insertByCreatedDesc, hlt]
      rw [hstep]
      refine List.pairwise_cons.mpr ⟨?_, h⟩
      intro b hb
      rcases List.mem_cons.mp hb with rfl | hb
      · exact Nat.le_of_lt hlt
      · exact le_trans (hn b hb) (Nat.le_of_lt hlt)
    · have hstep : insertByCreatedDesc m (n :: ns) = n :: insertByCreatedDesc m ns := by
        simp [insertByCreatedDesc, hlt]
      rw [hstep]
      refine List.pairwise_cons.mpr ⟨?_, ih hns⟩
      intro b hb
      rcases (mem_insertByCreatedDesc b m ns).mp hb with rfl | hb
      · exact Nat.le_of_not_lt hlt
      · exact hn b hb

theorem pairwise_sortFold (l acc : List Message)
    (hacc : acc.Pairwise (fun a b => b.createdAt ≤ a.createdAt)) :
    (l.foldl (fun a m => insertByCreatedDesc m a) acc).Pairwise
      (fun a b => b.createdAt ≤ a.createdAt) := by
  induction l generalizing acc with
  | nil => exact hacc
  | cons m ms ih => exact ih _ (pairwise_insertByCreatedDesc m acc hacc)

theorem pairwise_sortByCreatedDesc (l : List Message) :
    (sortByCreatedDesc l).Pairwise (fun a b => b.createdAt ≤ a.createdAt) :=
  pairwise_sortFold l [] List.Pairwise.nil

/-- Every message on a returned history page is a stored, non-deleted message
of the requested chat. -/
theorem mem_pageData (db : DB) (u : UserId) (cid : ChatId) (page limit : Nat)
    (pr : PageResult) (h : (getChatMessages db u cid page limit).2 = .ok pr)
    (x : Message) (hx : x ∈ pr.data) :
    x ∈ db.messages ∧ x.chatId = cid ∧ x.isDeleted = false := by
  cases hfind : db.findChat cid with
  | none => simp [getChatMessages, hfind] at h
  | some chat =>
    by_cases hmem : chat.participants.contains u = true
    · have hmem1 : u ∈ chat.participants := by simpa using hmem
      simp [getChatMessages, hfind, hmem1] at h
      rw [← h] at hx
      simp only [List.mem_reverse] at hx
      have hx2 : x ∈ (sortByCreatedDesc ((db.saveChatUnread
          (chat.markAsRead u)).messages.filter
            (fun m => m.chatId == cid && !m.isDeleted))).drop ((page - 1) * limit) :=
        (List.take_sublist _ _).mem hx
      have hx3 := (List.drop_sublist _ _).mem hx2
      rw [mem_sortByCreatedDesc] at hx3
      rcases List.mem_filter.mp hx3 with ⟨hx4, hx5⟩
      simp at hx5
      exact ⟨hx4, hx5.1, hx5.2⟩
    · have hmem1 : u ∉ chat.participants := by
        intro hc
        exact hmem (by simpa using hc)
      simp [getChatMessages, hfind, hmem1] at h

/-- Replacing (by id) a stored message pins every same-id member of the store
to the replacement. -/
theorem mem_saveMessage_id (db : DB) (m1 x : Message)
    (hx : x ∈ (db.saveMessage m1).messages) (hid : x.id = m1.id) : x = m1 := by
  simp [DB.saveMessage] at hx
  obtain ⟨y, hy, hfy⟩ := hx
  by_cases h : y.id = m1.id
  · rw [if_pos (by simpa using h)] at hfy
    exact hfy.symm
  · rw [if_neg (by simpa using h)] at hfy
    rw [hfy] at h
    exact absurd hid h

/-- Looking up a message id after replacing that message yields the
replacement. -/
theorem findMessage_saveMessage (db : DB) (m m1 : Message) (mid : MsgId)
    (hm : db.findMessage mid = some m) (hid : m1.id = m.id) :
    (db.saveMessage m1).findMessage mid = some m1 := by
  have hmid : m.id = mid := by
    have := List.find?_some hm
    simpa using this
  have hpred : ∀ x : Message,
      (((fun m2 => if m2.id == m1.id then m1 else m2) x).id == mid) =
        (x.id == mid) := by
    intro x
    by_cases hxi : x.id = m1.id
    · simp only [hxi, beq_self_eq_true, if_true]
    · have hb : (x.id == m1.id) = false := by simpa using hxi
      simp [hb]
  have hfind : List.find? (fun m2 => m2.id == mid) db.messages = some m := hm
  show (db.messages.map (fun m2 => if m2.id == m1.id then m1 else m2)).find?
      (fun m2 => m2.id == mid) = some m1
  rw [find?_map_of_pred db.messages _ _ hpred, hfind]
  simp [hid, hmid]

/-- C3 (amended): when the requester is the sender and the message belongs to
the chat, the REST soft delete succeeds, sets `isDeleted` while leaving the
content unchanged (no tombstone), and the message thereafter appears on NO
page of the chat history — the page query filters deleted messages out
instead of showing a deletion marker. -/
theorem C3_theorem (db : DB) (u : UserId) (chatId : ChatId) (mid : MsgId)
    (m : Message)
    (hm : db.findMessage mid = some m)
    (hchat : m.chatId = chatId)
    (hsender : m.sender = u) :
    (deleteMessage db u chatId mid).2 = .ok () ∧
    ((deleteMessage db u chatId mid).1.findMessage mid =
        some { m with isDeleted := true }) ∧
    (∀ u1 page limit pr,
      (getChatMessages (deleteMessage db u chatId mid).1 u1 chatId page limit).2 =
        .ok pr →
      ∀ x ∈ pr.data, x.id ≠ m.id) := by
  have hmid : m.id = mid := by
    have := List.find?_some hm
    simpa using this
  have hred : deleteMessage db u chatId mid =
      (db.saveMessage { m with isDeleted := true }, .ok ()) := by
    simp [deleteMessage, hm, hchat, hsender]
  refine ⟨by rw [hred], ?_, ?_⟩
  · rw [hred]
    exact findMessage_saveMessage db m { m with isDeleted := true } mid hm rfl
  · intro u1 page limit pr hpage x hx hxid
    rw [hred] at hpage
    rcases mem_pageData _ u1 chatId page limit pr hpage x hx with ⟨hxmem, -, hxdel⟩
    have hxeq := mem_saveMessage_id db { m with isDeleted := true } x hxmem
      (by simpa using hxid)
    rw [hxeq] at hxdel
    cases hxdel

/-- C3 witness: the theorem applied to the concrete store `dbB`. -/
theorem C3_witness :
    (deleteMessage dbB 1 0 0).2 = .ok () ∧
    (deleteMessage dbB 1 0 0).1.findMessage 0 = some { msgB with isDeleted := true } := by
  have h := C3_theorem dbB 1 0 0 msgB rfl rfl rfl
  exact ⟨h.1, h.2.1⟩

/-- C9 (amended): every page the history endpoint returns is in non-decreasing
`createdAt` order — `createdAt` is the only order key; ties carry no
store-side guarantee (and come back in reversed append order here). -/
theorem C9_theorem (db : DB) (u : UserId) (cid : ChatId) (page limit : Nat)
    (pr : PageResult) (h : (getChatMessages db u cid page limit).2 = .ok pr) :
    pr.data.Pairwise (fun a b => a.createdAt ≤ b.createdAt) ∧
    (∀ m : Message, messageOrderKey m = m.createdAt) := by
  refine ⟨?_, fun m => rfl⟩
  cases hfind : db.findChat cid with
  | none => simp [getChatMessages, hfind] at h
  | some chat =>
    by_cases hmem : chat.participants.contains u = true
    · have hmem1 : u ∈ chat.participants := by simpa using hmem
      simp [getChatMessages, hfind, hmem1] at h
      rw [← h]
      rw [List.pairwise_reverse]
      exact (pairwise_sortByCreatedDesc _).sublist
        ((List.take_sublist _ _).trans (List.drop_sublist _ _))
    · have hmem1 : u ∉ chat.participants := by
        intro hc
        exact hmem (by simpa using hc)
      simp [getChatMessages, hfind, hmem1] at h

/-- C9 witness: the page returned for the two simultaneous messages is in
non-decreasing `createdAt` order. -/
theorem C9_witness :
    ({ data := [msgE2, msgE1], currentPage := 1, totalMessages := 2,
       hasNext := false, hasPrev := false } : PageResult).data.Pairwise
      (fun a b => a.createdAt ≤ b.createdAt) :=
  (C9_theorem dbE 1 0 1 50 _ rfl).1

/-- Chat lookup commutes with persisting an unread-counter update. -/
theorem findChat_saveChatUnread (db : DB) (c : Chat) (cid : ChatId) :
    (db.saveChatUnread c).findChat cid =
      (db.findChat cid).map (fun c1 =>
        if c1.id == c.id then { c1 with unreadCount := c.unreadCount } else c1) := by
  show (db.chats.map _).find? _ = _
  refine find?_map_of_pred db.chats _ _ (fun c1 => ?_)
  by_cases h : (c1.id == c.id) = true
  · rw [if_pos h]
  · rw [if_neg h]

/-- C10: the two hidden read-state mutations.  A successful history fetch by a
member resets the unread counter of that member to 0, and `createOrGetChat`
returning an existing conversation resets the unread counter of the caller to 0 and
persists it — neither effect is part of a read-only contract. -/
theorem C10_theorem (db : DB) (u : UserId) (cid : ChatId) (page limit : Nat)
    (chat : Chat) (hfind : db.findChat cid = some chat)
    (hmem : chat.participants.contains u = true) :
    (∃ pr, (getChatMessages db u cid page limit).2 = .ok pr) ∧
    (∃ chat1, (getChatMessages db u cid page limit).1.findChat cid = some chat1 ∧
      chat1.getUnreadCount u = 0) ∧
    (∀ serviceId other bk now chatx,
      db.services.contains serviceId = true →
      (db.findUser other).isSome = true →
      db.findActiveChatFor u other serviceId = some chatx →
      createOrGetChat db u serviceId other bk now =
        (db.saveChatUnread (chatx.markAsRead u), .ok (chatx.markAsRead u, true)) ∧
      (chatx.markAsRead u).getUnreadCount u = 0) := by
  have hmem1 : u ∈ chat.participants := by simpa using hmem
  have hred1 : (getChatMessages db u cid page limit).1 =
      db.saveChatUnread (chat.markAsRead u) := by
    simp [getChatMessages, hfind, hmem1]
  refine ⟨?_, ?_, ?_⟩
  · cases hq : (getChatMessages db u cid page limit).2 with
    | ok pr => exact ⟨pr, rfl⟩
    | error e =>
      exfalso
      simp [getChatMessages, hfind, hmem1] at hq
  · rw [hred1, findChat_saveChatUnread, hfind]
    refine ⟨{ chat with unreadCount := (chat.markAsRead u).unreadCount }, ?_, ?_⟩
    · simp [Chat.markAsRead]
    · simp [Chat.getUnreadCount, Chat.markAsRead, getKV_setKV]
  · intro serviceId other bk now chatx hsv husr hcx
    have hsv1 : serviceId ∈ db.services := by simpa using hsv
    have h2 : (db.findUser other).isNone = false := by
      cases hval : db.findUser other
      · rw [hval] at husr; simp at husr
      · simp
    refine ⟨?_, ?_⟩
    · simp [createOrGetChat, hsv1, h2, hcx]
    · simp [Chat.markAsRead, Chat.getUnreadCount, getKV_setKV]

/-- C10 witness: the `createOrGetChat` branch of the theorem applied to the store
`dbB`, whose caller has 3 pending unread messages before the call. -/
theorem C10_witness :
    createOrGetChat dbB 1 0 2 none 999 =
      (dbB.saveChatUnread (chatB.markAsRead 1), .ok (chatB.markAsRead 1, true)) ∧
    (chatB.markAsRead 1).getUnreadCount 1 = 0 :=
  (C10_theorem dbB 1 0 1 50 chatB rfl rfl).2.2 0 2 none 999 chatB rfl rfl rfl

/-- C7 (amended): a cross-conversation `replyTo` is rejected with the
validation error and no store change on the REST path only; the realtime path
appends the message — reply reference intact — and one message is added to
the store. -/
theorem C7_theorem (db : DB) (u : UserId) (chatId : ChatId) (content : String)
    (mt : MessageType) (atts : List Attachment) (rid : MsgId) (rm : Message)
    (chat : Chat) (now : Time)
    (hfind : db.findChat chatId = some chat)
    (hmem : chat.participants.contains u = true)
    (hrm : db.findMessage rid = some rm)
    (hcross : rm.chatId ≠ chatId) :
    sendMessage db u chatId content mt atts (some rid) now =
      (db, .error (.validation "Invalid reply message")) ∧
    (∀ st sid,
      (handleSendMessage st db u sid ⟨chatId, content, mt, atts, some rid⟩ now
          true).1.messages.length = db.messages.length + 1 ∧
      ∃ m2 ∈ (handleSendMessage st db u sid ⟨chatId, content, mt, atts, some rid⟩ now
          true).1.messages,
        m2.id = db.nextMsgId ∧ m2.chatId = chatId ∧ m2.replyTo = some rid) := by
  have hmem1 : u ∈ chat.participants := by simpa using hmem
  have hinv : replyToInvalid db chatId (some rid) = true := by
    simp [replyToInvalid, hrm]
    simpa using hcross
  constructor
  · simp [sendMessage, hfind, hmem1, hinv]
  · intro st sid
    have hred : (handleSendMessage st db u sid ⟨chatId, content, mt, atts, some rid⟩
        now true).1.messages =
        db.messages ++
          [(db.saveNewMessage chatId u content mt atts (some rid) now).2] := by
      simp [handleSendMessage, hfind, hmem1, DB.saveNewMessage, DB.saveChatUnread,
            DB.saveChatLastMessage]
    rw [hred]
    refine ⟨by simp, _, List.mem_append_right _ (List.mem_singleton_self _),
      rfl, rfl, rfl⟩

/-- C7 witness: the REST rejection at the concrete cross-chat reply. -/
theorem C7_witness :
    sendMessage dbD 1 0 "cross" MessageType.text [] (some 0) 100 =
      (dbD, .error (.validation "Invalid reply message")) :=
  (C7_theorem dbD 1 0 "cross" MessageType.text [] 0 msgD chatD0 100 rfl rfl rfl
    (by decide)).1

/-- C2: the room broadcast is emitted only on the success path, strictly after
the durable append — whenever the append fails (or any guard fails), the store
is unchanged and the only emitted event is a single error to the socket of
the sender alone; and any `new_message` broadcast refers to a message that is in the
store (and not soft-deleted, hence retrievable by the page query). -/
theorem C2_theorem (st : ServerState) (db : DB) (u : UserId) (sid : SocketId)
    (d : SendData) (now : Time) (saveOk : Bool) :
    (saveOk = false →
      (handleSendMessage st db u sid d now saveOk).1 = db ∧
      ∃ emsg, (handleSendMessage st db u sid d now saveOk).2 = [.errorEvt sid emsg]) ∧
    (∀ cid mid,
      Event.newMessage cid mid ∈ (handleSendMessage st db u sid d now saveOk).2 →
      saveOk = true ∧
      ∃ m2 ∈ (handleSendMessage st db u sid d now saveOk).1.messages,
        m2.id = mid ∧ m2.chatId = cid ∧ m2.isDeleted = false) := by
  cases hfind : db.findChat d.chatId with
  | none =>
    refine ⟨fun h => ⟨?_, "Access denied", ?_⟩, fun cid mid hmem2 => ?_⟩
    · simp [handleSendMessage, hfind]
    · simp [handleSendMessage, hfind]
    · simp [handleSendMessage, hfind] at hmem2
  | some chat =>
    by_cases hmem : chat.participants.contains u = true
    · have hmem1 : u ∈ chat.participants := by simpa using hmem
      cases saveOk with
      | false =>
        refine ⟨fun h => ⟨?_, "Error sending message", ?_⟩, fun cid mid hmem2 => ?_⟩
        · simp [handleSendMessage, hfind, hmem1]
        · simp [handleSendMessage, hfind, hmem1]
        · simp [handleSendMessage, hfind, hmem1] at hmem2
      | true =>
        refine ⟨fun h => absurd h (by simp), fun cid mid hmem2 => ?_⟩
        refine ⟨rfl, ?_⟩
        have hred : (handleSendMessage st db u sid d now true).2 =
            Event.newMessage d.chatId db.nextMsgId ::
              (chat.participants.filter (fun p => p ≠ u)).filterMap (fun p =>
                (getKV st.userSockets p).map (fun psid =>
                  Event.messageNotification psid d.chatId d.content u
                    (((chat.participants.filter (fun p => p ≠ u)).foldl
                      (fun c1 q => c1.incrementUnread q) chat).getUnreadCount p))) := by
          simp [handleSendMessage, hfind, hmem1, DB.saveNewMessage]
        have hmsgs : (handleSendMessage st db u sid d now true).1.messages =
            db.messages ++
              [(db.saveNewMessage d.chatId u d.content d.messageType d.attachments
                  d.replyTo now).2] := by
          simp [handleSendMessage, hfind, hmem1, DB.saveNewMessage, DB.saveChatUnread,
                DB.saveChatLastMessage]
        rw [hred] at hmem2
        rcases List.mem_cons.mp hmem2 with heq | hmem3
        · simp only [Event.newMessage.injEq] at heq
          obtain ⟨hcid, hmid⟩ := heq
          rw [hmsgs]
          exact ⟨_, List.mem_append_right _ (List.mem_singleton_self _),
            hmid.symm, hcid.symm, rfl⟩
        · exfalso
          rcases List.mem_filterMap.mp hmem3 with ⟨p, hp, heq2⟩
          cases hkv : getKV st.userSockets p <;> rw [hkv] at heq2 <;> simp at heq2
    · have hmem0 : u ∉ chat.participants := by
        intro hc
        exact hmem (by simpa using hc)
      refine ⟨fun h => ⟨?_, "Access denied", ?_⟩, fun cid mid hmem2 => ?_⟩
      · simp [handleSendMessage, hfind, hmem0]
      · simp [handleSendMessage, hfind, hmem0]
      · simp [handleSendMessage, hfind, hmem0] at hmem2

/-- C2 witness: the theorem applied to a failing append on the concrete
fixture — the store is untouched and the sender alone receives an error. -/
theorem C2_witness :
    (handleSendMessage stA dbA 1 10 sendA 100 false).1 = dbA ∧
    ∃ emsg, (handleSendMessage stA dbA 1 10 sendA 100 false).2 =
      [.errorEvt 10 emsg] :=
  (C2_theorem stA dbA 1 10 sendA 100 false).1 rfl

/-- The notification targets of the emitted `message_notification` batch are
exactly the registered sockets of the listed participants. -/
theorem filterMap_notifTarget_of_notifs (us : List (UserId × SocketId))
    (l : List UserId) (cid : ChatId) (cont : String) (snd : UserId)
    (cnt : UserId → Nat) :
    ((l.filterMap (fun p => (getKV us p).map (fun psid =>
        Event.messageNotification psid cid cont snd (cnt p)))).filterMap
      notifTarget) = l.filterMap (fun p => getKV us p) := by
  induction l with
  | nil => rfl
  | cons p ps ih =>
    cases hk : getKV us p with
    | none => simp [List.filterMap_cons, hk, ih]
    | some psid => simp [List.filterMap_cons, hk, notifTarget, ih]

/-- Chat lookup commutes with persisting a last-message update. -/
theorem find?_update_lastMessage (l : List Chat) (cid tgt : ChatId) (mid : MsgId)
    (t1 : Time) :
    (l.map (fun c1 => if c1.id == tgt then
        { c1 with lastMessage := some mid, lastMessageAt := t1 } else c1)).find?
      (fun c => c.id == cid) =
      (l.find? (fun c => c.id == cid)).map (fun c1 => if c1.id == tgt then
        { c1 with lastMessage := some mid, lastMessageAt := t1 } else c1) := by
  refine find?_map_of_pred l _ _ (fun c => ?_)
  by_cases h : (c.id == tgt) = true
  · rw [if_pos h]
  · rw [if_neg h]

/-- Chat lookup commutes with persisting an unread-counters update. -/
theorem find?_update_unread (l : List Chat) (cid tgt : ChatId)
    (uc : List (UserId × Nat)) :
    (l.map (fun c1 => if c1.id == tgt then { c1 with unreadCount := uc }
        else c1)).find? (fun c => c.id == cid) =
      (l.find? (fun c => c.id == cid)).map (fun c1 => if c1.id == tgt then
        { c1 with unreadCount := uc } else c1) := by
  refine find?_map_of_pred l _ _ (fun c => ?_)
  by_cases h : (c.id == tgt) = true
  · rw [if_pos h]
  · rw [if_neg h]

/-- C1 (amended): on a successful realtime send, (a) the outcome is invariant
under arbitrary room state — room membership is never consulted; (b) the
unread counter of every other participant is incremented, connected and in-room or
not; (c) the `message_notification` targets are exactly the registered sockets
of the other participants, in-room or not — a participant with no registered
socket receives no signal. -/
theorem C1_theorem (st : ServerState) (db : DB) (u : UserId) (sid : SocketId)
    (d : SendData) (now : Time) (chat : Chat)
    (hfind : db.findChat d.chatId = some chat)
    (hmem : chat.participants.contains u = true)
    (hnd : chat.participants.Nodup) :
    (∀ rooms1, handleSendMessage { st with rooms := rooms1 } db u sid d now true =
      handleSendMessage st db u sid d now true) ∧
    (∃ chat1,
      (handleSendMessage st db u sid d now true).1.findChat d.chatId = some chat1 ∧
      ∀ p ∈ chat.participants, p ≠ u →
        chat1.getUnreadCount p = chat.getUnreadCount p + 1) ∧
    ((handleSendMessage st db u sid d now true).2.filterMap notifTarget =
      (chat.participants.filter (fun p => p ≠ u)).filterMap
        (fun p => getKV st.userSockets p)) := by
  have hmem1 : u ∈ chat.participants := by simpa using hmem
  have hfind2 : db.chats.find? (fun c => c.id == d.chatId) = some chat := hfind
  have hbeq : (chat.id == d.chatId) = true := by
    have h := List.find?_some hfind2
    exact h
  have hid1 : ((chat.participants.filter (fun p => p ≠ u)).foldl
      (fun c1 q => c1.incrementUnread q) chat).id = chat.id :=
    foldl_incrementUnread_id _ chat
  refine ⟨fun rooms1 => rfl, ?_, ?_⟩
  · have hchats : (handleSendMessage st db u sid d now true).1.chats =
        (db.chats.map (fun c1 => if c1.id == d.chatId then
            { c1 with lastMessage := some db.nextMsgId, lastMessageAt := now }
          else c1)).map
          (fun c1 => if c1.id == ((chat.participants.filter (fun p => p ≠ u)).foldl
              (fun c1 q => c1.incrementUnread q) chat).id then
            { c1 with unreadCount := ((chat.participants.filter (fun p => p ≠ u)).foldl
              (fun c1 q => c1.incrementUnread q) chat).unreadCount }
          else c1) := by
      simp [handleSendMessage, hfind, hmem1, DB.saveNewMessage, DB.saveChatUnread,
            DB.saveChatLastMessage]
    have hfc : (handleSendMessage st db u sid d now true).1.findChat d.chatId =
        ((handleSendMessage st db u sid d now true).1.chats).find?
          (fun c => c.id == d.chatId) := rfl
    rw [hfc, hchats, find?_update_unread, find?_update_lastMessage, hfind2]
    simp only [Option.map_some']
    rw [if_pos hbeq]
    refine ⟨_, rfl, ?_⟩
    intro p hp hpu
    have hlmid : ({ chat with lastMessage := some db.nextMsgId, lastMessageAt := now } : Chat).id = chat.id := rfl
    have hcond : (({ chat with lastMessage := some db.nextMsgId, lastMessageAt := now } : Chat).id == ((chat.participants.filter (fun p => p ≠ u)).foldl (fun c1 q => c1.incrementUnread q) chat).id) = true := by
      rw [hlmid, hid1]
      exact beq_self_eq_true _
    rw [if_pos hcond]
    have hpo : p ∈ chat.participants.filter (fun p => p ≠ u) := by
      simp [List.mem_filter, hp, hpu]
    have hfold := foldl_incrementUnread_mem (chat.participants.filter (fun p => p ≠ u))
      chat p (hnd.filter _) hpo
    exact hfold
  · have hevents : (handleSendMessage st db u sid d now true).2 =
        Event.newMessage d.chatId db.nextMsgId ::
          (chat.participants.filter (fun p => p ≠ u)).filterMap (fun p =>
            (getKV st.userSockets p).map (fun psid =>
              Event.messageNotification psid d.chatId d.content u
                (((chat.participants.filter (fun p => p ≠ u)).foldl
                  (fun c1 q => c1.incrementUnread q) chat).getUnreadCount p))) := by
      simp [handleSendMessage, hfind, hmem1, DB.saveNewMessage]
    rw [hevents, List.filterMap_cons]
    exact filterMap_notifTarget_of_notifs st.userSockets _ d.chatId d.content u _

/-- C1 witness: the amended notification-target characterization at the
concrete fixture (user 2 connected and in-room, user 3 offline). -/
theorem C1_witness :
    (handleSendMessage stA dbA 1 10 sendA 100 true).2.filterMap notifTarget =
      (chatA.participants.filter (fun p => p ≠ 1)).filterMap
        (fun p => getKV stA.userSockets p) :=
  (C1_theorem stA dbA 1 10 sendA 100 chatA rfl rfl (by decide)).2.2

end Tawa
